import Mathlib

/-!
# Verification of the Sim2Blend marker-import module (`Sim2Blend/markers.py`)

Shallow embedding of the marker-trajectory ingestion and resampling pipeline:

* `load_trc_names` embeds the name-extraction part of `load_trc`
  (markers.py lines 62-68).  The numeric part of `load_trc`
  (`np.loadtxt(trc_path, skiprows=5)[:,1:]`) is delegated to numpy in the
  source; here the already-loaded matrix is passed to `import_trc` as the
  `data` parameter, a `List (List ℚ)` of rows (column 0 = time, then x/y/z
  triples per marker, exactly the layout after the `[:,1:]` slice).
* `import_trc` embeds the driver (markers.py lines 108-161).  Host (bpy)
  side effects are recorded as an ordered `Effect` trace; uncaught Python
  exceptions are the `Option PyErr` component (the trace holds the effects
  performed before the raise — nothing is rolled back).  Numeric data is
  modelled over ℚ; Python `int()` of an exact quotient truncates toward
  zero, which is integer T-division (`Int.tdiv`) on the cross-multiplied
  numerator and denominator.
  Out-of-range element reads of the data matrix are modelled totally via
  `getD` defaults (no claim concerns them); the raising sites that claims
  do concern — `range(0, len, 0)` (ValueError), the header name lookup, the
  zero-duration division — are modelled explicitly and in source order.
-/

/-- Python `s.endswith(suffix)`. -/
def pyEndsWith (s suffix : String) : Bool := suffix.toList.isSuffixOf s.toList

/-- Python membership `needle in hay` on the character lists:
true iff `needle` occurs contiguously inside `hay`. -/
def substrIn (needle : List Char) : List Char → Bool
  | [] => needle.isEmpty
  | c :: rest => needle.isPrefixOf (c :: rest) || substrIn needle rest

/-- Python `m in coll_m` on strings (markers.py line 142). -/
def pyIn (needle hay : String) : Bool := substrIn needle.toList hay.toList

/-- Python `header.split('\t\t\t')` (markers.py line 68): greedy
left-to-right split on the 3-tab separator, keeping empty pieces. -/
def splitTTT : List Char → List (List Char)
  | '\t' :: '\t' :: '\t' :: rest => [] :: splitTTT rest
  | c :: rest =>
      match splitTTT rest with
      | [] => [[c]]
      | g :: gs => (c :: g) :: gs
  | [] => [[]]

/-- Python `s[12:-3]` (markers.py line 65): drop the first 12 characters
and the last 3, with Python's clamping on short strings. -/
def pyHeaderSlice (s : String) : List Char :=
  (s.toList.take (s.toList.length - 3)).drop 12

/-- Embedding of the name-extraction part of `load_trc` (markers.py
lines 62-68).  The loop enumerates the file's lines; when the enumeration
index reaches 2 it calls `f.readline()`, which returns the NEXT line of
the file — line index 3 (or `""` at end of file).  So the header actually
sliced and split is line index 3.  A file with fewer than 3 lines never
assigns `trc_header` and the later `.split` raises `NameError`: `none`. -/
def load_trc_names (lines : List String) : Option (List String) :=
  if 3 ≤ lines.length then
    some ((splitTTT (pyHeaderSlice (lines.getD 3 ""))).map String.mk)
  else none

/-- The time column: `times = trc_data_np[:,0]` (markers.py line 128). -/
def timesOf (data : List (List ℚ)) : List ℚ := data.map (fun row => row.getD 0 0)

/-- The intrinsic rate `fps = int((len(times)-1) / (times[-1] - times[0]))` (markers.py
line 129), computed exactly: the divisor `times[-1] - times[0]` is the
fraction `(tl.num * t0.den - t0.num * tl.den) / (tl.den * t0.den)`, so the
truncated quotient is the T-division below (`fps_of_eq_floor` relates this
to `⌊⌋` of the rational quotient). -/
def fps_of (times : List ℚ) : ℤ :=
  let tl := times.getLastD 0
  let t0 := times.headD 0
  (((times.length : ℤ) - 1) * ((tl.den : ℤ) * (t0.den : ℤ))).tdiv
    (tl.num * (t0.den : ℤ) - t0.num * (tl.den : ℤ))

/-- The factor `conv_fac_frame_rate = int(fps / target_framerate)` (markers.py
line 130): `int()` of the exact quotient of two integers is T-division. -/
def conv_fac_of (fps target_framerate : ℤ) : ℤ :=
  fps.tdiv target_framerate

/-- The retained sample indices: Python `range(0, nlen, k)` for integer
step `k`.  Empty for a negative step (start < stop); the step-0
`ValueError` is raised by the caller before this is consulted. -/
def sampleIndices (nlen : ℕ) (k : ℤ) : List ℕ :=
  if k ≤ 0 then []
  else (List.range ((nlen + k.toNat - 1) / k.toNat)).map (fun j => j * k.toNat)

/-- Output frame number for retained sample `n` under stride `k`:
`int(n/conv_fac_frame_rate) + 1` (markers.py line 155). -/
def pyFrame (n k : ℕ) : ℤ := (n : ℤ).tdiv (k : ℤ) + 1

/-- Cell read `trc_data_np[n, j]`, total via defaults. -/
def cell (data : List (List ℚ)) (n j : ℕ) : ℚ := (data.getD n []).getD j 0

/-- Axis remap (markers.py lines 145-152): for `'zup'`, raw `(a, b, c)`
becomes `(loc_x, loc_y, loc_z) = (a, -c, b)`; any other direction takes
the `else` branch, giving `(a, c, b)`. -/
def remap (direction : String) (a b c : ℚ) : ℚ × ℚ × ℚ :=
  if direction = "zup" then (a, -c, b) else (a, c, b)

/-- One recorded host side effect, in program order. -/
inductive Effect where
  | setFps (rate : ℤ)
  | newCollection
  | addMarker (markerName : String)
  | keyframe (objName : String) (pos : ℚ × ℚ × ℚ) (frame : ℤ)
  | c3dImport (path : String)
  deriving DecidableEq

/-- An uncaught Python exception. -/
inductive PyErr where
  | nameError
  | indexError
  | valueError
  | zeroDivisionError
  deriving DecidableEq

/-- The comprehension `[coll_m for coll_m in coll_marker_names if m in coll_m][0]`
(markers.py line 142): first collection object name containing `m`;
`none` models the `IndexError` on an empty comprehension. -/
def resolveMarker (collNames : List String) (m : String) : Option String :=
  (collNames.filter (fun c => pyIn m c)).head?

/-- The keyframe effects emitted for one trajectory `i` (markers.py
lines 143-155): one keyframe per retained sample index `n`, on the
resolved object `objName`, at position `remap direction` of the raw
triple from columns `3*i+1 .. 3*i+3` of row `n`, at frame
`int(n/k) + 1`. -/
def keyframes_for (data : List (List ℚ)) (direction : String) (i : ℕ)
    (nlen : ℕ) (k : ℤ) (objName : String) : List Effect :=
  (sampleIndices nlen k).map (fun n =>
    Effect.keyframe objName
      (remap direction (cell data n (3*i+1)) (cell data n (3*i+2)) (cell data n (3*i+3)))
      (pyFrame n k.toNat))

/-- The animation loop (markers.py lines 140-155) over the enumerated
marker names.  Per iteration, in source order: resolve the name by
substring match (IndexError when no object matches), construct
`range(0, len(times), conv_fac)` (ValueError when the step is 0), then
emit the trajectory's keyframes.  A raise aborts the remaining
iterations but keeps the effects already performed. -/
def animateMarkers (data : List (List ℚ)) (direction : String)
    (created : List String) (nlen : ℕ) (k : ℤ) :
    List (ℕ × String) → List Effect × Option PyErr
  | [] => ([], none)
  | (i, m) :: rest =>
    match resolveMarker created m with
    | none => ([], some PyErr.indexError)
    | some r =>
      if k = 0 then ([], some PyErr.valueError)
      else
        let tail := animateMarkers data direction created nlen k rest
        (keyframes_for data direction i nlen k r ++ tail.1, tail.2)

/-- Embedding of `import_trc` (markers.py lines 108-161).  The `lines`
parameter is the text of the file at `trc_path`; `data` is the numpy
matrix `np.loadtxt(trc_path, skiprows=5)[:,1:]`.  Branches, raising
sites and effect order follow the source: the `.trc` branch sets the
scene fps, computes the intrinsic rate and decimation factor, creates
the collection and one marker per name, then animates; the `.c3d`
branch delegates to the host importer; any other path falls through
both conditions and returns with no effect. -/
def import_trc (trc_path : String) (lines : List String)
    (data : List (List ℚ)) (direction : String) (target_framerate : ℤ) :
    List Effect × Option PyErr :=
  if pyEndsWith trc_path ".trc" then
    match load_trc_names lines with
    | none => ([], some PyErr.nameError)
    | some markerNames =>
      let setEff := [Effect.setFps target_framerate]
      let times := timesOf data
      if times.length = 0 then (setEff, some PyErr.indexError)
      else if times.getLastD 0 = times.headD 0 then
        (setEff, some PyErr.zeroDivisionError)
      else if target_framerate = 0 then (setEff, some PyErr.zeroDivisionError)
      else
        let conv := conv_fac_of (fps_of times) target_framerate
        let created := setEff ++ [Effect.newCollection] ++ markerNames.map Effect.addMarker
        let anim := animateMarkers data direction markerNames times.length conv markerNames.enum
        (created ++ anim.1, anim.2)
  else if pyEndsWith trc_path ".c3d" then
    ([Effect.c3dImport trc_path], none)
  else ([], none)

/-- A fixture file: 4 preamble lines with the marker-name header
`Frame#\tTime\tA\t\t\tB\t\t\t` at line index 3, as in a real .trc file. -/
def trcLinesAB : List String :=
  ["PathFileType\t4\t(X/Y/Z)\twalk.trc", "DataRate\tCameraRate", "100\t100",
   "Frame#\tTime\tA\t\t\tB\t\t\t"]

/-- A fixture matrix: 2 samples, time column `[0, 1]`, two marker triples. -/
def trcDataAB : List (List ℚ) :=
  [[0, 1, 2, 3, 4, 5, 6], [1, 1, 2, 3, 4, 5, 6]]

/-- A fixture file whose two trajectory names overlap: `"Hip"` is a
substring of `"LeftHip"`, the earlier name. -/
def trcLinesLH : List String :=
  ["PathFileType\t4\t(X/Y/Z)\twalk.trc", "DataRate\tCameraRate", "100\t100",
   "Frame#\tTime\tLeftHip\t\t\tHip\t\t\t"]

/-- Whether an effect is a keyframe insertion on the object named `nm`. -/
def keyframeNamed (nm : String) : Effect → Bool
  | Effect.keyframe objName _ _ => objName == nm
  | _ => false

/-- A fixture matrix: 31 samples whose time column spans `[0, 1]`, so the
intrinsic rate is `int(30 / 1) = 30`. -/
def trcData31 : List (List ℚ) :=
  List.replicate 30 [(0 : ℚ), 0, 0, 0] ++ [[1, 0, 0, 0]]

/-- The inverse of the `zup` remap named by the spec:
`(x, y, z) ↦ (x, z, -y)`. -/
def zupInverse (p : ℚ × ℚ × ℚ) : ℚ × ℚ × ℚ := (p.1, p.2.2, -p.2.1)

/-! ## Helper lemmas -/

theorem isPrefixOf_self_char : ∀ l : List Char, l.isPrefixOf l = true
  | [] => rfl
  | c :: t => by simp [List.isPrefixOf, isPrefixOf_self_char t]

theorem substrIn_self (l : List Char) : substrIn l l = true := by
  cases l with
  | nil => rfl
  | cons c t => simp [substrIn, isPrefixOf_self_char]

theorem pyIn_self (s : String) : pyIn s s = true := substrIn_self s.toList

theorem resolveMarker_cons_self (n0 : String) (ns : List String) :
    resolveMarker (n0 :: ns) n0 = some n0 := by
  simp [resolveMarker, List.filter_cons, pyIn_self]

theorem resolveMarker_eq_find (coll : List String) (m : String) :
    resolveMarker coll m = coll.find? (fun c => pyIn m c) := by
  induction coll with
  | nil => rfl
  | cons a l ih =>
    cases h : pyIn m a with
    | true => simp [resolveMarker, List.filter_cons, h]
    | false =>
      have h1 : resolveMarker (a :: l) m = resolveMarker l m := by
        simp [resolveMarker, List.filter_cons, h]
      have h2 : List.find? (fun c => pyIn m c) (a :: l)
          = List.find? (fun c => pyIn m c) l :=
        List.find?_cons_of_neg _ (by simp [h])
      rw [h1, h2, ih]

theorem tdiv_eq_floor (x y : ℤ) (hx : 0 ≤ x) (hy : 0 < y) :
    x.tdiv y = ⌊(x : ℚ) / (y : ℚ)⌋ := by
  obtain ⟨d, rfl⟩ : ∃ d : ℕ, y = (d : ℤ) := ⟨y.toNat, (Int.toNat_of_nonneg hy.le).symm⟩
  rw [Int.tdiv_eq_ediv hx hy.le, show (((d : ℤ) : ℚ)) = ((d : ℕ) : ℚ) by push_cast; rfl,
    Rat.floor_intCast_div_natCast x d]

theorem conv_fac_of_eq_floor (f t : ℤ) (hf : 0 ≤ f) (ht : 0 < t) :
    conv_fac_of f t = ⌊(f : ℚ) / (t : ℚ)⌋ := tdiv_eq_floor f t hf ht

theorem num_eq_mul_den (a : ℚ) : (a.num : ℚ) = a * (a.den : ℚ) :=
  (div_eq_iff (by exact_mod_cast a.den_nz)).mp (Rat.num_div_den a)

theorem cross_sub (a b : ℚ) :
    ((a.num * (b.den : ℤ) - b.num * (a.den : ℤ) : ℤ) : ℚ)
      = (a - b) * ((a.den : ℚ) * (b.den : ℚ)) := by
  push_cast
  rw [num_eq_mul_den a, num_eq_mul_den b]
  ring

theorem fps_of_eq_floor (times : List ℚ) (h2 : 2 ≤ times.length)
    (ht : times.headD 0 < times.getLastD 0) :
    fps_of times
      = ⌊((times.length : ℚ) - 1) / (times.getLastD 0 - times.headD 0)⌋ := by
  have hD : (0 : ℚ) < times.getLastD 0 - times.headD 0 := sub_pos.mpr ht
  have hq := cross_sub (times.getLastD 0) (times.headD 0)
  have hdnum : (0 : ℤ) <
      (times.getLastD 0).num * ((times.headD 0).den : ℤ)
        - (times.headD 0).num * ((times.getLastD 0).den : ℤ) := by
    have hpos : (0 : ℚ) <
        (((times.getLastD 0).num * ((times.headD 0).den : ℤ)
          - (times.headD 0).num * ((times.getLastD 0).den : ℤ) : ℤ) : ℚ) := by
      rw [hq]
      have d1 : (0 : ℚ) < ((times.getLastD 0).den : ℚ) := by
        exact_mod_cast (times.getLastD 0).den_pos
      have d2 : (0 : ℚ) < ((times.headD 0).den : ℚ) := by
        exact_mod_cast (times.headD 0).den_pos
      exact mul_pos hD (mul_pos d1 d2)
    exact_mod_cast hpos
  have hX : (0 : ℤ) ≤ (times.length : ℤ) - 1 := by omega
  have hdden : (0 : ℤ) ≤ ((times.getLastD 0).den : ℤ) * ((times.headD 0).den : ℤ) := by
    positivity
  unfold fps_of
  rw [tdiv_eq_floor _ _ (mul_nonneg hX hdden) hdnum]
  congr 1
  rw [Int.cast_mul, hq]
  have hden0 : ((times.getLastD 0).den : ℚ) * ((times.headD 0).den : ℚ) ≠ 0 := by
    have d1 : ((times.getLastD 0).den : ℚ) ≠ 0 := by
      exact_mod_cast (times.getLastD 0).den_nz
    have d2 : ((times.headD 0).den : ℚ) ≠ 0 := by
      exact_mod_cast (times.headD 0).den_nz
    exact mul_ne_zero d1 d2
  rw [show ((((times.getLastD 0).den : ℤ) * ((times.headD 0).den : ℤ) : ℤ) : ℚ)
      = ((times.getLastD 0).den : ℚ) * ((times.headD 0).den : ℚ) by push_cast; rfl]
  rw [mul_div_mul_right _ _ hden0]
  push_cast
  rfl


theorem sampleIndices_pos (nlen : ℕ) (k : ℤ) (hk : 1 ≤ k) :
    sampleIndices nlen k
      = (List.range ((nlen + k.toNat - 1) / k.toNat)).map (fun j => j * k.toNat) := by
  rw [sampleIndices, if_neg (by omega)]

theorem sampleIndices_length (nlen : ℕ) (k : ℤ) (hk : 1 ≤ k) (hn : 1 ≤ nlen) :
    (sampleIndices nlen k).length = (nlen - 1) / k.toNat + 1 := by
  rw [sampleIndices_pos _ _ hk, List.length_map, List.length_range]
  have hkt : 1 ≤ k.toNat := by omega
  rw [show nlen + k.toNat - 1 = (nlen - 1) + k.toNat by omega]
  rw [Nat.add_div_right _ (by omega)]

theorem sampleIndices_get (nlen : ℕ) (k : ℤ) (hk : 1 ≤ k) (j : ℕ)
    (hj : j < (sampleIndices nlen k).length) :
    (sampleIndices nlen k).get? j = some (j * k.toNat) := by
  rw [sampleIndices_pos _ _ hk] at hj ⊢
  rw [List.length_map, List.length_range] at hj
  rw [List.get?_map, List.get?_range hj]
  rfl

theorem pyFrame_zero (k : ℕ) : pyFrame 0 k = 1 := by
  rw [pyFrame]
  rw [show ((0 : ℕ) : ℤ) = 0 from rfl, Int.zero_tdiv]
  rw [zero_add]

theorem pyFrame_mul (j k : ℕ) (hk : 1 ≤ k) : pyFrame (j * k) k = (j : ℤ) + 1 := by
  rw [pyFrame, ← Int.ofNat_tdiv, Nat.mul_div_cancel j (by omega : 0 < k)]

/-! ## Claims -/

/-- C1, counterexample.  This file carries the exact header scenario of the
claim — the 12-character label `Frame#\tTime\t`, the names `A\t\t\tB` and a
3-character tail — at line index 2 (0-based), yet the loader does not
return `["A", "B"]`: the `f.readline()` call inside the enumeration loop
consumes line index 3, not line index 2. -/
theorem c1_header_line2_counterexample :
    load_trc_names
        ["PathFileType\t4\t(X/Y/Z)\twalk.trc", "DataRate\tCameraRate",
         "Frame#\tTime\tA\t\t\tB\t\t\t", "100\t100"]
      ≠ some ["A", "B"] := by decide

/-- C1, amended.  The loader obtains the trajectory names from line index 3
(0-based) of the file — the loop's trigger fires at enumeration index 2,
but the `f.readline()` it executes returns the following line — dropping
the first 12 and last 3 characters of that line and splitting on the 3-tab
delimiter; in particular a file whose line index 3 carries the header names
`A\t\t\tB\t\t\t` after the fixed 12-character label yields `["A", "B"]`. -/
theorem c1_header_from_line3 (l0 l1 l2 l3 : String) (rest : List String) :
    load_trc_names (l0 :: l1 :: l2 :: l3 :: rest)
        = some ((splitTTT (pyHeaderSlice l3)).map String.mk)
      ∧ load_trc_names [l0, l1, l2, "Frame#\tTime\tA\t\t\tB\t\t\t"]
        = some ["A", "B"] := by
  constructor
  · rw [load_trc_names, if_pos (by simp [List.length_cons])]
    rfl
  · rw [load_trc_names, if_pos (by simp [List.length_cons])]
    rfl

/-- C2, counterexample.  A path with neither recognized extension makes
the importer return normally (`none` error) with an empty effect trace,
instead of failing: the source is an `if .trc / elif .c3d` chain with no
`else` branch. -/
theorem c2_unrecognized_ext_counterexample :
    import_trc "markers.txt" trcLinesAB trcDataAB "zup" 30 = ([], none) := by
  decide

/-- C2, amended.  For every path whose name ends in neither `.trc` nor
`.c3d`, the import operation returns normally as a silent no-op: no error
is raised and no side effect is performed. -/
theorem c2_unrecognized_ext_noop (path dir : String) (lines : List String)
    (data : List (List ℚ)) (target : ℤ)
    (h1 : pyEndsWith path ".trc" = false)
    (h2 : pyEndsWith path ".c3d" = false) :
    import_trc path lines data dir target = ([], none) := by
  rw [import_trc]
  rw [h1, h2]
  rfl

/-- C2, witness for the amended theorem at a concrete input. -/
theorem c2_unrecognized_ext_noop_witness :
    pyEndsWith "markers.txt" ".trc" = false
      ∧ pyEndsWith "markers.txt" ".c3d" = false
      ∧ import_trc "markers.txt" [] [] "zup" 30 = ([], none) :=
  ⟨by decide, by decide,
    c2_unrecognized_ext_noop "markers.txt" "zup" [] [] 30 (by decide) (by decide)⟩

/-- C3, counterexample.  An input whose target rate (30) equals its
intrinsic rate (30) satisfies the claim's `target ≥ intrinsic` hypothesis,
but the computed decimation factor is `int(30/30) = 1`, not 0. -/
theorem c3_factor_zero_counterexample :
    fps_of (timesOf trcData31) = 30
      ∧ conv_fac_of (fps_of (timesOf trcData31)) 30 = 1
      ∧ conv_fac_of (fps_of (timesOf trcData31)) 30 ≠ 0 := by decide

/-- C3, amended.  For every input whose target frame rate is strictly
greater than the (nonnegative) intrinsic rate, the computed decimation
factor is 0, and the `.trc` import then raises (the step-0 `range` fault)
rather than striding by a positive integer; at `target = intrinsic` the
factor is 1 (see the counterexample). -/
theorem c3_factor_zero_strict :
    (∀ fps target : ℤ, 0 ≤ fps → fps < target → conv_fac_of fps target = 0)
      ∧ (import_trc "walk.trc" trcLinesAB trcDataAB "zup" 40).2
        = some PyErr.valueError := by
  constructor
  · intro fps target h1 h2
    exact Int.tdiv_eq_zero_of_lt h1 h2
  · decide

/-- C3, witness for the amended theorem at a concrete input. -/
theorem c3_factor_zero_strict_witness : conv_fac_of 1 40 = 0 :=
  c3_factor_zero_strict.1 1 40 (by decide) (by decide)

/-- C4, confirmed.  With at least 2 samples and increasing time, the driver
computes `fps = floor((num_samples - 1) / (time[-1] - time[0]))` from
column 0 alone (`timesOf` is column 0 of the sample matrix), and the
decimation factor `k = floor(fps / target_framerate)`. -/
theorem c4_rate_formulas (data : List (List ℚ)) (target : ℤ)
    (h2 : 2 ≤ data.length)
    (ht : (timesOf data).headD 0 < (timesOf data).getLastD 0)
    (htar : 0 < target) :
    fps_of (timesOf data)
        = ⌊((data.length : ℚ) - 1)
            / ((timesOf data).getLastD 0 - (timesOf data).headD 0)⌋
      ∧ conv_fac_of (fps_of (timesOf data)) target
        = ⌊(fps_of (timesOf data) : ℚ) / (target : ℚ)⌋ := by
  have hlen : (timesOf data).length = data.length := List.length_map _ _
  have h2t : 2 ≤ (timesOf data).length := by omega
  have hfloor := fps_of_eq_floor (timesOf data) h2t ht
  have hfps0 : 0 ≤ fps_of (timesOf data) := by
    rw [hfloor]
    apply Int.le_floor.mpr
    rw [Int.cast_zero]
    apply div_nonneg
    · have hc : (2 : ℚ) ≤ ((timesOf data).length : ℚ) := by exact_mod_cast h2t
      linarith
    · have := sub_pos.mpr ht
      linarith
  constructor
  · rw [hfloor, hlen]
  · exact conv_fac_of_eq_floor _ _ hfps0 htar

/-- C4, witness at a concrete input. -/
theorem c4_rate_formulas_witness :
    fps_of (timesOf trcDataAB)
        = ⌊((trcDataAB.length : ℚ) - 1)
            / ((timesOf trcDataAB).getLastD 0 - (timesOf trcDataAB).headD 0)⌋
      ∧ conv_fac_of (fps_of (timesOf trcDataAB)) 30
        = ⌊(fps_of (timesOf trcDataAB) : ℚ) / ((30 : ℤ) : ℚ)⌋ :=
  c4_rate_formulas trcDataAB 30 (by decide) (by decide) (by decide)

/-- C5, confirmed.  For a positive stride `k` and a nonempty sample matrix
the driver retains exactly `floor((num_samples - 1) / k) + 1` samples per
trajectory (the keyframe list it emits has that length); at equal target
and intrinsic rates the stride is `int(f/f) = 1` and every sample index is
retained; concretely `int(120/30) = 4`, and 121 samples at stride 4 retain
31 samples. -/
theorem c5_decimation_counts :
    (∀ (data : List (List ℚ)) (dir nm : String) (i ns : ℕ) (k : ℤ),
        1 ≤ ns → 1 ≤ k →
        (keyframes_for data dir i ns k nm).length = (ns - 1) / k.toNat + 1)
      ∧ (∀ f : ℤ, 0 < f → conv_fac_of f f = 1)
      ∧ (∀ ns : ℕ, sampleIndices ns 1 = List.range ns)
      ∧ conv_fac_of 120 30 = 4
      ∧ (sampleIndices 121 4).length = 31 := by
  refine ⟨?_, ?_, ?_, by decide, by decide⟩
  · intro data dir nm i ns k h1 hk
    rw [keyframes_for, List.length_map, sampleIndices_length ns k hk h1]
  · intro f hf
    exact Int.tdiv_self (by omega)
  · intro ns
    rw [sampleIndices_pos ns 1 le_rfl]
    simp

/-- C5, witness at concrete inputs. -/
theorem c5_decimation_counts_witness :
    (keyframes_for trcDataAB "zup" 0 121 4 "A").length = (121 - 1) / (4 : ℤ).toNat + 1
      ∧ conv_fac_of 120 120 = 1 :=
  ⟨c5_decimation_counts.1 trcDataAB "zup" "A" 0 121 4 (by decide) (by decide),
   c5_decimation_counts.2.1 120 (by decide)⟩

/-- C6, confirmed.  The keyframe for retained sample `n` is recorded at
output frame `int(n/k) + 1`: sample 0 always maps to frame 1, the sample
`n = j * k` maps to frame `j + 1`, and the `j`-th entry of the keyframe
list a trajectory emits carries frame number `j + 1`. -/
theorem c6_frame_numbering :
    (∀ k : ℕ, pyFrame 0 k = 1)
      ∧ (∀ j k : ℕ, 1 ≤ k → pyFrame (j * k) k = (j : ℤ) + 1)
      ∧ (∀ (data : List (List ℚ)) (dir nm : String) (i nlen : ℕ) (k : ℤ) (j : ℕ),
          1 ≤ k → j < (sampleIndices nlen k).length →
          (keyframes_for data dir i nlen k nm).get? j
            = some (Effect.keyframe nm
                (remap dir (cell data (j * k.toNat) (3*i+1))
                  (cell data (j * k.toNat) (3*i+2))
                  (cell data (j * k.toNat) (3*i+3)))
                ((j : ℤ) + 1))) := by
  refine ⟨pyFrame_zero, pyFrame_mul, ?_⟩
  intro data dir nm i nlen k j hk hj
  rw [keyframes_for, List.get?_map, sampleIndices_get nlen k hk j hj]
  rw [Option.map_some']
  rw [pyFrame_mul j k.toNat (by omega)]

/-- C6, witness at a concrete input. -/
theorem c6_frame_numbering_witness :
    pyFrame (7 * 4) 4 = (7 : ℤ) + 1
      ∧ (keyframes_for trcDataAB "zup" 0 2 1 "A").get? 1
        = some (Effect.keyframe "A"
            (remap "zup" (cell trcDataAB (1 * (1 : ℤ).toNat) (3*0+1))
              (cell trcDataAB (1 * (1 : ℤ).toNat) (3*0+2))
              (cell trcDataAB (1 * (1 : ℤ).toNat) (3*0+3)))
            ((1 : ℤ) + 1)) :=
  ⟨c6_frame_numbering.2.1 7 4 (by decide),
   c6_frame_numbering.2.2 trcDataAB "zup" "A" 0 2 1 1 (by decide) (by decide)⟩

/-- C7, confirmed.  The raw triple `(a, b, c)` read from columns
`(3i+1, 3i+2, 3i+3)` of row `n` is emitted as position `(a, -c, b)` under
`'zup'` and `(a, c, b)` under `'yup'`; the trajectory's keyframe list
contains exactly that remapped triple for each retained sample index. -/
theorem c7_axis_remap :
    (∀ a b c : ℚ, remap "zup" a b c = (a, -c, b) ∧ remap "yup" a b c = (a, c, b))
      ∧ (∀ (data : List (List ℚ)) (dir nm : String) (i nlen : ℕ) (k : ℤ) (n : ℕ),
          n ∈ sampleIndices nlen k →
          Effect.keyframe nm
              (remap dir (cell data n (3*i+1)) (cell data n (3*i+2))
                (cell data n (3*i+3)))
              (pyFrame n k.toNat)
            ∈ keyframes_for data dir i nlen k nm) := by
  constructor
  · intro a b c
    exact ⟨by rw [remap, if_pos rfl], by rw [remap, if_neg (by decide)]⟩
  · intro data dir nm i nlen k n hn
    exact List.mem_map_of_mem _ hn

/-- C7, witness at a concrete input. -/
theorem c7_axis_remap_witness :
    Effect.keyframe "A"
        (remap "zup" (cell trcDataAB 0 (3*0+1)) (cell trcDataAB 0 (3*0+2))
          (cell trcDataAB 0 (3*0+3)))
        (pyFrame 0 (1 : ℤ).toNat)
      ∈ keyframes_for trcDataAB "zup" 0 2 1 "A" :=
  c7_axis_remap.2 trcDataAB "zup" "A" 0 2 1 0 (by decide)

/-- C8, confirmed.  The `'zup'` remap is exactly inverted by
`(x, y, z) ↦ (x, z, -y)`: the round trip recovers every rational triple. -/
theorem c8_zup_roundtrip (a b c : ℚ) :
    zupInverse (remap "zup" a b c) = (a, b, c) := by
  rw [remap, if_pos rfl, zupInverse]
  simp

/-- C9, confirmed.  Name resolution returns the first collection object
name containing the trajectory name as a substring (`List.find?` over the
creation-ordered names); consequently in a file with names
`["LeftHip", "Hip"]` every keyframe of trajectory `"Hip"` is applied to the
earlier object `"LeftHip"` — no keyframe ever targets the object `"Hip"`
even though it was created. -/
theorem c9_substring_resolution :
    (∀ (coll : List String) (m : String),
        resolveMarker coll m = coll.find? (fun c => pyIn m c))
      ∧ (import_trc "walk.trc" trcLinesLH trcDataAB "zup" 1).1.filter
          (keyframeNamed "Hip") = []
      ∧ Effect.keyframe "LeftHip" (4, -6, 5) 1
        ∈ (import_trc "walk.trc" trcLinesLH trcDataAB "zup" 1).1
      ∧ Effect.addMarker "Hip"
        ∈ (import_trc "walk.trc" trcLinesLH trcDataAB "zup" 1).1 :=
  ⟨resolveMarker_eq_find, by decide, by decide, by decide⟩

/-- C10, confirmed.  On a `.trc` input whose decimation factor is 0,
the error is raised only at sample iteration (the step-0 `range`): the final
trace holds the already-performed frame-rate assignment and one created
marker per trajectory name, no keyframes, and the `ValueError` — nothing
is rolled back. -/
theorem c10_partial_effects (path dir : String) (lines : List String)
    (data : List (List ℚ)) (target : ℤ) (n0 : String) (ns : List String)
    (hpath : pyEndsWith path ".trc" = true)
    (hload : load_trc_names lines = some (n0 :: ns))
    (hne : ¬ (timesOf data).length = 0)
    (hdt : ¬ (timesOf data).getLastD 0 = (timesOf data).headD 0)
    (htar : ¬ target = 0)
    (hconv : conv_fac_of (fps_of (timesOf data)) target = 0) :
    import_trc path lines data dir target
      = ([Effect.setFps target, Effect.newCollection]
          ++ (n0 :: ns).map Effect.addMarker, some PyErr.valueError) := by
  rw [import_trc, hpath]
  rw [if_pos rfl]
  rw [hload]
  simp only [if_neg hne, if_neg hdt, if_neg htar]
  have hanim : animateMarkers data dir (n0 :: ns) (timesOf data).length
      (conv_fac_of (fps_of (timesOf data)) target) ((n0 :: ns).enum)
        = ([], some PyErr.valueError) := by
    rw [show (n0 :: ns).enum = (0, n0) :: ns.enumFrom 1 from rfl]
    rw [animateMarkers, resolveMarker_cons_self]
    simp only [if_pos hconv]
  rw [hanim]
  simp

/-- C10, witness at a concrete input (intrinsic rate 1, target 40). -/
theorem c10_partial_effects_witness :
    import_trc "walk.trc" trcLinesAB trcDataAB "zup" 40
      = ([Effect.setFps 40, Effect.newCollection]
          ++ ("A" :: ["B"]).map Effect.addMarker, some PyErr.valueError) :=
  c10_partial_effects "walk.trc" "zup" trcLinesAB trcDataAB 40 "A" ["B"]
    (by decide) (by decide) (by decide) (by decide) (by decide) (by decide)
